import Mathlib

/-!
# Verification of the LEARN-Hub recommendation core

Shallow embedding of `server/app/core` (filters.py, scoring.py, engine.py,
constants.py, models.py) together with `app/utils/time_utils.py`.

Conventions of the embedding:
* Python `int` fields that are always non-negative in the data model
  (durations, scores, impacts) are `Nat`; ages and the pipeline
  configuration integers (`max_activity_count`, `limit`) are `Int`.
* Python `float` arithmetic (ratios of small integers, divisions by 5 or by
  an impact sum) is embedded as exact rational arithmetic over `ℚ`;
  `int(x)` followed by the ubiquitous `min(max(·,0),100)` clamp is embedded
  by `clampScore` (for every rational the two agree, see its docstring).
* Python object identity, needed because the pipeline mutates the
  transient `break_after` field of shared `ActivityModel` objects, is
  embedded by indexing activities by their position in the caller's input
  list and threading an explicit break store `Nat → Option Break`.
-/

/-- `ActivityFormat` enum from models.py. -/
inductive ActivityFormat
  | UNPLUGGED
  | DIGITAL
  | HYBRID
deriving DecidableEq

/-- `ActivityResource` enum from models.py. -/
inductive ActivityResource
  | COMPUTERS
  | TABLETS
  | HANDOUTS
  | BLOCKS
  | ELECTRONICS
  | STATIONERY
deriving DecidableEq

/-- `PriorityCategory` enum from models.py. -/
inductive PriorityCategory
  | AGE_APPROPRIATENESS
  | TOPIC_RELEVANCE
  | DURATION_FIT
  | BLOOM_LEVEL_MATCH
  | SERIES_DURATION_FIT
deriving DecidableEq

/-- `BloomLevel` enum from models.py. -/
inductive BloomLevel
  | REMEMBER
  | UNDERSTAND
  | APPLY
  | ANALYZE
  | EVALUATE
  | CREATE
deriving DecidableEq

/-- `ActivityTopic` enum from models.py. -/
inductive ActivityTopic
  | DECOMPOSITION
  | PATTERNS
  | ABSTRACTION
  | ALGORITHMS
deriving DecidableEq

/-- `EnergyLevel` enum from models.py. -/
inductive EnergyLevel
  | LOW
  | MEDIUM
  | HIGH
deriving DecidableEq

/-- The `.value` string of an `ActivityFormat` member. -/
def formatValue : ActivityFormat → String
  | .UNPLUGGED => "unplugged"
  | .DIGITAL => "digital"
  | .HYBRID => "hybrid"

/-- The `.value` string of an `ActivityResource` member. -/
def resourceValue : ActivityResource → String
  | .COMPUTERS => "computers"
  | .TABLETS => "tablets"
  | .HANDOUTS => "handouts"
  | .BLOCKS => "blocks"
  | .ELECTRONICS => "electronics"
  | .STATIONERY => "stationery"

/-- The `.value` string of a `PriorityCategory` member. -/
def priorityValue : PriorityCategory → String
  | .AGE_APPROPRIATENESS => "age_appropriateness"
  | .TOPIC_RELEVANCE => "topic_relevance"
  | .DURATION_FIT => "duration_fit"
  | .BLOOM_LEVEL_MATCH => "bloom_level_match"
  | .SERIES_DURATION_FIT => "series_duration_fit"

/-- The `.value` string of a `BloomLevel` member. -/
def bloomValue : BloomLevel → String
  | .REMEMBER => "remember"
  | .UNDERSTAND => "understand"
  | .APPLY => "apply"
  | .ANALYZE => "analyze"
  | .EVALUATE => "evaluate"
  | .CREATE => "create"

/-- The `.value` string of an `ActivityTopic` member. -/
def topicValue : ActivityTopic → String
  | .DECOMPOSITION => "decomposition"
  | .PATTERNS => "patterns"
  | .ABSTRACTION => "abstraction"
  | .ALGORITHMS => "algorithms"

/-- The `.value` string of an `EnergyLevel` member. -/
def energyValue : EnergyLevel → String
  | .LOW => "low"
  | .MEDIUM => "medium"
  | .HIGH => "high"

/-! ## Computable primitives

`Rat.inv` is `@[irreducible]` and `String.toLower`/`String.capitalize` use
well-founded recursion, so none of them reduce inside the kernel; the
embedding uses the equivalent computable functions below so that concrete
runs of the embedded code can be checked by `decide`/`rfl`. -/

/-- Kernel-computable rational addition; `ratAdd_eq` identifies it with
`a + b`. -/
def ratAdd (a b : ℚ) : ℚ := mkRat (a.num * b.den + b.num * a.den) (a.den * b.den)

/-- Kernel-computable rational subtraction; `ratSub_eq` identifies it with
`a - b`. -/
def ratSub (a b : ℚ) : ℚ := mkRat (a.num * b.den - b.num * a.den) (a.den * b.den)

/-- Kernel-computable rational multiplication; `ratMul_eq` identifies it
with `a * b`. -/
def ratMul (a b : ℚ) : ℚ := mkRat (a.num * b.num) (a.den * b.den)

/-- Kernel-computable rational division; `ratDiv_eq` identifies it with
`a / b` (both send division by zero to zero). -/
def ratDiv (a b : ℚ) : ℚ :=
  if b.num < 0 then mkRat (-(a.num * b.den)) (a.den * b.num.natAbs)
  else mkRat (a.num * b.den) (a.den * b.num.natAbs)

/-- Kernel-computable left-fold sum, as Python's `x += ...` accumulation;
`ratSum_eq` identifies it with `List.sum`. -/
def ratSum (l : List ℚ) : ℚ := l.foldl ratAdd 0

theorem num_eq_mul_den (a : ℚ) : (a.num : ℚ) = a * (a.den : ℚ) := by
  have had : ((a.den : ℚ)) ≠ 0 := Nat.cast_ne_zero.mpr a.den_nz
  have ha := Rat.num_div_den a
  rw [div_eq_iff had] at ha
  exact ha

theorem ratAdd_eq (a b : ℚ) : ratAdd a b = a + b := by
  have had : ((a.den : ℚ)) ≠ 0 := Nat.cast_ne_zero.mpr a.den_nz
  have hbd : ((b.den : ℚ)) ≠ 0 := Nat.cast_ne_zero.mpr b.den_nz
  rw [ratAdd, Rat.mkRat_eq_div, div_eq_iff (by positivity)]
  push_cast
  rw [num_eq_mul_den a, num_eq_mul_den b]
  ring

theorem ratSub_eq (a b : ℚ) : ratSub a b = a - b := by
  have had : ((a.den : ℚ)) ≠ 0 := Nat.cast_ne_zero.mpr a.den_nz
  have hbd : ((b.den : ℚ)) ≠ 0 := Nat.cast_ne_zero.mpr b.den_nz
  rw [ratSub, Rat.mkRat_eq_div, div_eq_iff (by positivity)]
  push_cast
  rw [num_eq_mul_den a, num_eq_mul_den b]
  ring

theorem ratMul_eq (a b : ℚ) : ratMul a b = a * b := by
  have had : ((a.den : ℚ)) ≠ 0 := Nat.cast_ne_zero.mpr a.den_nz
  have hbd : ((b.den : ℚ)) ≠ 0 := Nat.cast_ne_zero.mpr b.den_nz
  rw [ratMul, Rat.mkRat_eq_div, div_eq_iff (by positivity)]
  push_cast
  rw [num_eq_mul_den a, num_eq_mul_den b]
  ring

theorem ratDiv_eq (a b : ℚ) : ratDiv a b = a / b := by
  have had : ((a.den : ℚ)) ≠ 0 := Nat.cast_ne_zero.mpr a.den_nz
  have hbd : ((b.den : ℚ)) ≠ 0 := Nat.cast_ne_zero.mpr b.den_nz
  by_cases hbn : b = 0
  · subst hbn
    rw [ratDiv]
    norm_num
  · have hnum : b.num ≠ 0 := Rat.num_ne_zero.mpr hbn
    have hnumQ : (b.num : ℚ) ≠ 0 := Int.cast_ne_zero.mpr hnum
    have main : ((a.num : ℚ) * (b.den : ℚ)) / ((a.den : ℚ) * (b.num : ℚ)) = a / b := by
      rw [div_eq_div_iff (by exact mul_ne_zero had hnumQ) hbn]
      rw [num_eq_mul_den a]
      rw [num_eq_mul_den b]
      ring
    rw [ratDiv]
    split
    · next h =>
      have hb' : (b.num : ℚ) < 0 := by exact_mod_cast h
      have hD : ((a.den * b.num.natAbs : ℕ) : ℚ) = (a.den : ℚ) * -(b.num : ℚ) := by
        push_cast [Int.cast_natAbs, abs_of_neg hb']
        ring
      have hN : ((-(a.num * b.den) : ℤ) : ℚ) = -((a.num : ℚ) * (b.den : ℚ)) := by
        push_cast
        ring
      rw [Rat.mkRat_eq_div, hN, hD, mul_neg, neg_div_neg_eq]
      exact main
    · next h =>
      have hb' : (0 : ℚ) ≤ (b.num : ℚ) := by exact_mod_cast not_lt.mp h
      have hD : ((a.den * b.num.natAbs : ℕ) : ℚ) = (a.den : ℚ) * (b.num : ℚ) := by
        push_cast [Int.cast_natAbs, abs_of_nonneg hb']
        ring
      have hN : (((a.num * b.den) : ℤ) : ℚ) = (a.num : ℚ) * (b.den : ℚ) := by
        push_cast
        ring
      rw [Rat.mkRat_eq_div, hN, hD]
      exact main

theorem ratSum_eq (l : List ℚ) : ratSum l = l.sum := by
  have gen : ∀ (l : List ℚ) (init : ℚ), l.foldl ratAdd init = init + l.sum := by
    intro l
    induction l with
    | nil => intro init; simp [List.sum_nil]
    | cons x xs ih =>
        intro init
        simp only [List.foldl_cons, ratAdd_eq, List.sum_cons, ih]
        ring
  simpa using gen l 0

/-- Python `str.lower()`, kernel-computable. -/
def pyLower (s : String) : String := ⟨s.data.map Char.toLower⟩

/-- Python `str.capitalize()` (first character uppercased, the rest
lowercased), kernel-computable. -/
def pyCapitalize (s : String) : String :=
  match s.data with
  | [] => ⟨[]⟩
  | c :: cs => ⟨c.toUpper :: cs.map Char.toLower⟩

/-- Python `"; ".join(parts)`, kernel-computable. -/
def joinSemicolonSpace (parts : List String) : String :=
  match parts with
  | [] => ""
  | p :: ps => ps.foldl (fun acc s => acc ++ "; " ++ s) p

/-- `Break` pydantic model from models.py (`type` literal omitted: it is the
constant string "break"). -/
structure Break where
  duration : Nat
  description : String
  reasons : List String
deriving DecidableEq

/-- `ActivityModel` pydantic model from models.py.  The never-read metadata
strings `source`, `pdf_path` and `pdf_uploaded_at` are omitted; every field
the core reads is present.  `break_after` is the transient, output-only
break slot. -/
structure ActivityModel where
  id : Option Int := none
  name : String
  description : String := ""
  age_min : Int
  age_max : Int
  format : ActivityFormat
  resources_needed : List ActivityResource := []
  bloom_level : BloomLevel
  duration_min_minutes : Nat
  duration_max_minutes : Option Nat := none
  topics : List ActivityTopic := []
  mental_load : Option EnergyLevel := none
  physical_energy : Option EnergyLevel := none
  prep_time_minutes : Option Nat := none
  cleanup_time_minutes : Option Nat := none
  break_after : Option Break := none
deriving DecidableEq

/-- `SearchCriteria` dataclass from models.py. -/
structure SearchCriteria where
  name : Option String := none
  target_age : Option Int := none
  format : Option (List ActivityFormat) := none
  bloom_levels : Option (List BloomLevel) := none
  target_duration : Option Nat := none
  available_resources : Option (List ActivityResource) := none
  preferred_topics : Option (List ActivityTopic) := none
deriving DecidableEq

/-- `CategoryScore` dataclass from models.py. -/
structure CategoryScore where
  category : String
  score : Nat
  impact : Nat
  priority_multiplier : ℚ := 1
  is_priority : Bool := false
deriving DecidableEq

/-- `ScoreModel` dataclass from models.py; the `category_scores` dict is
embedded as an insertion-ordered association list. -/
structure ScoreModel where
  total_score : Nat
  category_scores : List (String × CategoryScore)
  priority_categories : List PriorityCategory
  is_sequence : Bool := false
  activity_count : Nat := 1
deriving DecidableEq

/-! ## constants.py -/

/-- `BLOOM_ORDER` from constants.py: note the capitalized spelling, while the
`BloomLevel` enum values are lowercase. -/
def BLOOM_ORDER : List String :=
  ["Remember", "Understand", "Apply", "Analyze", "Evaluate", "Create"]

/-- The `impact` field of `SCORING_CATEGORIES[name]` from constants.py
(`KeyError` is unreachable in the core, embedded as 0). -/
def categoryImpact : String → Nat
  | "age_appropriateness" => 4
  | "bloom_level_match" => 5
  | "topic_relevance" => 4
  | "duration_fit" => 3
  | "series_cohesion" => 3
  | _ => 0

/-- `AGE_MAX_DISTANCE` from constants.py. -/
def AGE_MAX_DISTANCE : Int := 5

/-- `BLOOM_ADJACENT_LEVELS` from constants.py. -/
def BLOOM_ADJACENT_LEVELS : Nat := 1

/-- `PRIORITY_CATEGORY_MULTIPLIER` from constants.py. -/
def PRIORITY_CATEGORY_MULTIPLIER : ℚ := 2

/-- `AGE_FILTER_TOLERANCE` from constants.py. -/
def AGE_FILTER_TOLERANCE : Int := 2

/-- `LESSON_PLAN_TOP_ACTIVITIES_LIMIT` from constants.py. -/
def LESSON_PLAN_TOP_ACTIVITIES_LIMIT : Nat := 20

/-! ## time_utils.py -/

/-- `round_up_to_nearest_5_minutes` from time_utils.py. -/
def round_up_to_nearest_5_minutes (duration : Nat) : Nat :=
  if duration ≤ 0 then 0
  else ((duration - 1) / 5 + 1) * 5

/-! ## Clamping helper

Every scorer in scoring.py ends with `min(max(int(raw_score), 0), 100)`.
For any real (here rational) `q`, `min(max(int(q),0),100)` with Python's
truncating `int` equals `min(max(⌊q⌋,0),100)`: for `q ≥ 0` truncation is the
floor, and for `q < 0` both sides are 0 (truncation gives a value in `(q,0]`
whose max with 0 is 0, and `max(⌊q⌋,0) = 0`). -/

/-- `min(max(int(raw_score), 0), 100)` from scoring.py. -/
def clampScore (q : ℚ) : Nat :=
  (min (max ⌊q⌋ 0) 100).toNat

theorem clampScore_le_100 (q : ℚ) : clampScore q ≤ 100 := by
  unfold clampScore
  omega

theorem clampScore_intCast (n : Int) :
    clampScore (n : ℚ) = (min (max n 0) 100).toNat := by
  unfold clampScore
  rw [Int.floor_intCast]

/-! ## scoring.py: category scorers

Each `_score_*` method of `ScoringEngine` becomes a function taking the
engine's `priority_categories` list explicitly. -/

/-- `ScoringEngine._score_age_appropriateness`.  The `activity.age_min is
None or activity.age_max is None` guard of the source is vacuous here because
`ActivityModel` declares both as required `int` fields. -/
def score_age_appropriateness (pc : List PriorityCategory)
    (activity : ActivityModel) (criteria : SearchCriteria) : CategoryScore :=
  match criteria.target_age with
  | none =>
      { category := "age_appropriateness", score := 0, impact := categoryImpact "age_appropriateness" }
  | some target_age =>
      let raw_score : ℚ :=
        if activity.age_min ≤ target_age ∧ target_age ≤ activity.age_max then 100
        else
          let distance : Int :=
            if target_age < activity.age_min then activity.age_min - target_age
            else target_age - activity.age_max
          if distance ≤ AGE_MAX_DISTANCE then
            ratMul (ratDiv ((AGE_MAX_DISTANCE - distance : Int) : ℚ) (AGE_MAX_DISTANCE : ℚ)) 100
          else 0
      let is_priority := pc.contains .AGE_APPROPRIATENESS
      { category := "age_appropriateness"
        score := clampScore raw_score
        impact := categoryImpact "age_appropriateness"
        priority_multiplier := if is_priority then PRIORITY_CATEGORY_MULTIPLIER else 1
        is_priority := is_priority }

/-- `ScoringEngine._score_bloom_level_match`.  Note the source guard
`target_bloom.value in BLOOM_ORDER` compares the lowercase enum value with
the capitalized `BLOOM_ORDER` entries (embedded verbatim); the `.index`
calls inside the source's `try` are guarded by `List.contains` so the
`except ValueError` arm is the identity, as in the source. -/
def score_bloom_level_match (pc : List PriorityCategory)
    (activity : ActivityModel) (criteria : SearchCriteria) : CategoryScore :=
  let noScore : CategoryScore :=
    { category := "bloom_level_match", score := 0, impact := categoryImpact "bloom_level_match" }
  match criteria.bloom_levels with
  | none => noScore
  | some target_bloom_levels =>
      if target_bloom_levels.isEmpty then noScore
      else
        let activity_bloom := pyLower (bloomValue activity.bloom_level)
        let best_raw_score : ℚ :=
          target_bloom_levels.foldl
            (fun best target_bloom =>
              let target_bloom_lower := pyLower (bloomValue target_bloom)
              if target_bloom_lower = activity_bloom then
                if best < 100 then 100 else best
              else if BLOOM_ORDER.contains (bloomValue target_bloom)
                  ∧ BLOOM_ORDER.contains (bloomValue activity.bloom_level) then
                let target_idx := BLOOM_ORDER.indexOf (pyCapitalize (bloomValue target_bloom))
                let activity_idx := BLOOM_ORDER.indexOf (pyCapitalize (bloomValue activity.bloom_level))
                let distance := max target_idx activity_idx - min target_idx activity_idx
                if distance = BLOOM_ADJACENT_LEVELS then
                  if best < 50 then 50 else best
                else best
              else best)
            0
        let is_priority := pc.contains .BLOOM_LEVEL_MATCH
        { category := "bloom_level_match"
          score := clampScore best_raw_score
          impact := categoryImpact "bloom_level_match"
          priority_multiplier := if is_priority then PRIORITY_CATEGORY_MULTIPLIER else 1
          is_priority := is_priority }

/-- The `{t.value.lower() for t in topics}` set builder from scoring.py. -/
def topicSet (topics : List ActivityTopic) : Finset String :=
  (topics.map fun t => pyLower (topicValue t)).toFinset

/-- `ScoringEngine._score_topic_relevance`. -/
def score_topic_relevance (pc : List PriorityCategory)
    (activity : ActivityModel) (criteria : SearchCriteria) : CategoryScore :=
  let noScore : CategoryScore :=
    { category := "topic_relevance", score := 0, impact := categoryImpact "topic_relevance" }
  match criteria.preferred_topics with
  | none => noScore
  | some preferred_topics =>
      if preferred_topics.isEmpty then noScore
      else if activity.topics.isEmpty then noScore
      else
        let preferred_set := topicSet preferred_topics
        let activity_set := topicSet activity.topics
        let matchCount := (preferred_set ∩ activity_set).card
        let total_preferred := preferred_set.card
        let raw_score : ℚ :=
          if total_preferred = 0 then 0
          else ratMul (ratDiv (matchCount : ℚ) (total_preferred : ℚ)) 100
        let is_priority := pc.contains .TOPIC_RELEVANCE
        { category := "topic_relevance"
          score := clampScore raw_score
          impact := categoryImpact "topic_relevance"
          priority_multiplier := if is_priority then PRIORITY_CATEGORY_MULTIPLIER else 1
          is_priority := is_priority }

/-- The per-activity contribution to `total_duration` in
`ScoringEngine._score_duration_fit`: the `duration_max_minutes or
duration_min_minutes` midpoint, with Python's `or` treating `0` like
`None`. -/
def midpointDuration (a : ActivityModel) : Nat :=
  let duration_max :=
    match a.duration_max_minutes with
    | none => a.duration_min_minutes
    | some m => if m = 0 then a.duration_min_minutes else m
  (a.duration_min_minutes + duration_max) / 2

/-- The `total_duration` loop of `ScoringEngine._score_duration_fit`:
midpoints of all activities plus the `break_after` duration of every
non-final activity (the last position's break is excluded). -/
def totalDurationOf : List ActivityModel → Nat
  | [] => 0
  | [a] => midpointDuration a
  | a :: rest =>
      midpointDuration a +
        (match a.break_after with | some b => b.duration | none => 0) +
        totalDurationOf rest

/-- `ScoringEngine._score_duration_fit`. -/
def score_duration_fit (pc : List PriorityCategory)
    (activities : List ActivityModel) (criteria : SearchCriteria) : CategoryScore :=
  let noScore : CategoryScore :=
    { category := "duration_fit", score := 0, impact := categoryImpact "duration_fit" }
  match criteria.target_duration with
  | none => noScore
  | some target_duration =>
      let total_duration := totalDurationOf activities
      if total_duration = 0 then noScore
      else
        let raw_score : ℚ :=
          if total_duration = target_duration then 100
          else if total_duration < target_duration then
            let shortfall_ratio : ℚ :=
              ratDiv (ratSub (target_duration : ℚ) (total_duration : ℚ)) (target_duration : ℚ)
            if shortfall_ratio ≤ mkRat 1 2 then ratMul (ratSub 1 shortfall_ratio) 100 else 0
          else
            let excess_ratio : ℚ :=
              ratDiv (ratSub (total_duration : ℚ) (target_duration : ℚ)) (target_duration : ℚ)
            if excess_ratio ≤ mkRat 1 2 then ratMul (ratSub 1 excess_ratio) 100 else 0
        let is_priority := pc.contains .DURATION_FIT
        { category := "duration_fit"
          score := clampScore raw_score
          impact := categoryImpact "duration_fit"
          priority_multiplier := if is_priority then PRIORITY_CATEGORY_MULTIPLIER else 1
          is_priority := is_priority }

/-- The Bloom index used by `_score_series_cohesion_category`:
`BLOOM_ORDER.index(value.capitalize())` with the `except ValueError`
fallback to 0. -/
def bloomIndexOf (b : BloomLevel) : Nat :=
  let s := pyCapitalize (bloomValue b)
  if BLOOM_ORDER.contains s then BLOOM_ORDER.indexOf s else 0

/-- `ScoringEngine._score_series_cohesion_category`. -/
def score_series_cohesion_category (activities : List ActivityModel) : CategoryScore :=
  if activities.length = 1 then
    { category := "series_cohesion"
      score := categoryImpact "series_cohesion" * 20
      impact := categoryImpact "series_cohesion"
      priority_multiplier := 1
      is_priority := false }
  else
    let consecutive := activities.zip activities.tail
    let topic_overlap_sum : ℚ :=
      ratSum (consecutive.map fun p =>
        let current_topics := topicSet p.1.topics
        let next_topics := topicSet p.2.topics
        if current_topics.Nonempty ∧ next_topics.Nonempty then
          ratDiv ((current_topics ∩ next_topics).card : ℚ) ((current_topics ∪ next_topics).card : ℚ)
        else 0)
    let topic_overlap_score : ℚ :=
      if 1 < activities.length then
        ratMul (ratDiv topic_overlap_sum (ratSub (activities.length : ℚ) 1)) 50
      else topic_overlap_sum
    let bloom_progression_score : Nat :=
      if 1 < activities.length then
        let bloom_indices := activities.map fun a => bloomIndexOf a.bloom_level
        let is_progressive :=
          (bloom_indices.zip bloom_indices.tail).all fun p => p.1 ≤ p.2
        if is_progressive then 50 else 25
      else 0
    let cohesion_score : Nat :=
      (⌊ratAdd topic_overlap_score (bloom_progression_score : ℚ)⌋).toNat
    let cohesion_capped := min cohesion_score 100
    { category := "series_cohesion"
      score := min (max cohesion_capped 0) 100
      impact := categoryImpact "series_cohesion"
      priority_multiplier := 1
      is_priority := false }

/-- `ScoringEngine._calculate_weighted_total`: impact-weighted average of
the category scores, computed over the dict's values. -/
def calculate_weighted_total (category_scores : List (String × CategoryScore)) : Nat :=
  if category_scores.isEmpty then 0
  else
    let values := category_scores.map Prod.snd
    let weighted_sum : ℚ := ratSum (values.map fun c => ratMul (c.score : ℚ) (c.impact : ℚ))
    let total_weight : ℚ := ratSum (values.map fun c => (c.impact : ℚ))
    if total_weight = 0 then 0
    else clampScore (ratDiv weighted_sum total_weight)

/-- Python dict insertion `d[k] = v` on an insertion-ordered association
list: replace in place if the key is present, else append. -/
def dictInsert (k : String) (v : CategoryScore) :
    List (String × CategoryScore) → List (String × CategoryScore)
  | [] => [(k, v)]
  | (k', v') :: rest =>
      if k' = k then (k, v) :: rest else (k', v') :: dictInsert k v rest

/-- The `score.category_scores[category_name].score` read inside
`_calculate_average_individual_scores` (the `KeyError` case, unreachable in
the core, is embedded as 0). -/
def lookupCategoryScore (name : String) (m : ScoreModel) : Nat :=
  ((List.lookup name m.category_scores).map CategoryScore.score).getD 0

/-- `ScoringEngine._calculate_average_individual_scores`. -/
def calculate_average_individual_scores (pc : List PriorityCategory)
    (activity_scores : List ScoreModel) : List (String × CategoryScore) :=
  match activity_scores with
  | [] => []
  | first :: _ =>
      let category_names := first.category_scores.map Prod.fst
      category_names.map fun category_name =>
        let total_score := (activity_scores.map (lookupCategoryScore category_name)).sum
        let avg_score := total_score / activity_scores.length
        let is_priority :=
          (pc.map fun cat => pyLower (priorityValue cat)).contains (pyLower category_name)
        (category_name,
          { category := category_name
            score := avg_score
            impact := categoryImpact category_name
            priority_multiplier := if is_priority then PRIORITY_CATEGORY_MULTIPLIER else 1
            is_priority := is_priority })

/-- `ScoringEngine.score_activity`. -/
def score_activity (pc : List PriorityCategory)
    (activity : ActivityModel) (criteria : SearchCriteria) : ScoreModel :=
  let category_scores :=
    [("age_appropriateness", score_age_appropriateness pc activity criteria),
     ("bloom_level_match", score_bloom_level_match pc activity criteria),
     ("topic_relevance", score_topic_relevance pc activity criteria),
     ("duration_fit", score_duration_fit pc [activity] criteria)]
  { total_score := calculate_weighted_total category_scores
    category_scores := category_scores
    priority_categories := pc
    is_sequence := false
    activity_count := 1 }

/-- `ScoringEngine.score_activity_without_duration`. -/
def score_activity_without_duration (pc : List PriorityCategory)
    (activity : ActivityModel) (criteria : SearchCriteria) : ScoreModel :=
  let category_scores :=
    [("age_appropriateness", score_age_appropriateness pc activity criteria),
     ("bloom_level_match", score_bloom_level_match pc activity criteria),
     ("topic_relevance", score_topic_relevance pc activity criteria)]
  { total_score := calculate_weighted_total category_scores
    category_scores := category_scores
    priority_categories := pc
    is_sequence := false
    activity_count := 1 }

/-- `ScoringEngine.score_sequence`. -/
def score_sequence (pc : List PriorityCategory)
    (activities : List ActivityModel) (criteria : SearchCriteria) : ScoreModel :=
  let activity_scores := activities.map fun a => score_activity pc a criteria
  let avg := calculate_average_individual_scores pc activity_scores
  let category_scores :=
    dictInsert "duration_fit" (score_duration_fit pc activities criteria)
      (dictInsert "series_cohesion" (score_series_cohesion_category activities) avg)
  { total_score := calculate_weighted_total category_scores
    category_scores := category_scores
    priority_categories := pc
    is_sequence := true
    activity_count := activities.length }

/-- `ScoringEngine.score_sequence_without_duration`. -/
def score_sequence_without_duration (pc : List PriorityCategory)
    (activities : List ActivityModel) (criteria : SearchCriteria) : ScoreModel :=
  let activity_scores := activities.map fun a => score_activity_without_duration pc a criteria
  let avg := calculate_average_individual_scores pc activity_scores
  let category_scores :=
    dictInsert "series_cohesion" (score_series_cohesion_category activities) avg
  { total_score := calculate_weighted_total category_scores
    category_scores := category_scores
    priority_categories := pc
    is_sequence := true
    activity_count := activities.length }

/-! ## filters.py -/

/-- The per-activity pass/fail test of `apply_hard_filters`: the conjunction
of the six `continue` guards, in source order; a filter whose criteria field
is `None` (or an empty list, which Python's truthiness also skips) passes. -/
def passesHardFilters (criteria : SearchCriteria) (activity : ActivityModel) : Bool :=
  (match criteria.target_age with
   | none => true
   | some target_age =>
       decide (activity.age_min ≤ target_age + AGE_FILTER_TOLERANCE) &&
       decide (activity.age_max ≥ target_age - AGE_FILTER_TOLERANCE)) &&
  (match criteria.format with
   | none => true
   | some formats => formats.isEmpty || formats.contains activity.format) &&
  (match criteria.target_duration with
   | none => true
   | some target_duration => decide (activity.duration_min_minutes ≤ target_duration)) &&
  (match criteria.available_resources with
   | none => true
   | some available =>
       available.isEmpty ||
       activity.resources_needed.isEmpty ||
       (activity.resources_needed.all fun r =>
         (available.map fun a => pyLower (resourceValue a)).contains (pyLower (resourceValue r)))) &&
  (match criteria.bloom_levels with
   | none => true
   | some levels =>
       levels.isEmpty ||
       levels.any fun level =>
         pyLower (bloomValue activity.bloom_level) = pyLower (bloomValue level)) &&
  (match criteria.preferred_topics with
   | none => true
   | some topics =>
       topics.isEmpty || topics.any fun topic => activity.topics.contains topic)

/-- `apply_hard_filters` from filters.py: the accumulate-unless-`continue`
loop is an order-preserving filter by `passesHardFilters`. -/
def apply_hard_filters (activities : List ActivityModel)
    (criteria : SearchCriteria) : List ActivityModel :=
  activities.filter (passesHardFilters criteria)

/-! ## engine.py: combination generation, break assignment, pipeline -/

/-- `itertools.combinations(l, k)`: all length-`k` subsequences of `l` in
the order itertools emits them. -/
def combinations : Nat → List α → List (List α)
  | 0, _ => [[]]
  | _ + 1, [] => []
  | k + 1, x :: xs =>
      (combinations k xs).map (fun c => x :: c) ++ combinations (k + 1) xs

/-- Python `range(a, b)` over integers, as a list of naturals (the engine
only uses non-negative ranges). -/
def pyRange (a b : Int) : List Nat :=
  List.range' a.toNat (b - a).toNat

/-- Python list slicing `l[:limit]` for an `int` limit (negative limits
slice from the end). -/
def pySliceTo (limit : Int) (l : List α) : List α :=
  if 0 ≤ limit then l.take limit.toNat
  else l.take (l.length - (-limit).toNat)

/-- Stable insertion keeping the accumulated list sorted by strictly
descending key: the new element goes after every element whose key is `≥`
its own, which is exactly the tie behavior of Python's stable
`sorted(..., reverse=True)`. -/
def insertByScoreDesc (key : α → Nat) (x : α) : List α → List α
  | [] => [x]
  | h :: t => if key x ≤ key h then h :: insertByScoreDesc key x t else x :: h :: t

/-- Stable descending sort by `key`, embedding Python's
`sorted(results, key=lambda x: x[1].total_score, reverse=True)`. -/
def stableSortByScoreDesc (key : α → Nat) (l : List α) : List α :=
  l.foldl (fun acc x => insertByScoreDesc key x acc) []

/-- The mutable-object heap of one pipeline invocation: `break_after` is the
only field the engine ever assigns, so the store maps an activity's index in
the caller's list to its current `break_after`. -/
def BreakStore : Type := Nat → Option Break

/-- A placeholder activity for out-of-range reads; all indices the pipeline
produces are in range, so it is never actually read. -/
def defaultActivity : ActivityModel :=
  { name := "", age_min := 0, age_max := 0, format := .UNPLUGGED,
    bloom_level := .REMEMBER, duration_min_minutes := 0 }

/-- Read activity `i` of the caller's list as the scoring engine sees it
now: the immutable fields from the input, `break_after` from the store. -/
def materialize (input : List ActivityModel) (store : BreakStore) (i : Nat) : ActivityModel :=
  { (input.getD i defaultActivity) with break_after := store i }

/-- One iteration of the loop in
`RecommendationPipeline._assign_breaks_to_activities`, for a non-final
activity `a` followed by `next`: accumulate cleanup, mental-rest,
physical-rest and format-transition reasons, and return the `Break` to
assign, if any. -/
def breakForPair (a next : ActivityModel) : Option Break :=
  let cleanup : Nat := (a.cleanup_time_minutes).getD 0
  let withCleanup : Nat × List String :=
    if 0 < cleanup then (cleanup, ["Cleanup time for " ++ a.name]) else (0, [])
  let withMental : Nat × List String :=
    if (a.mental_load.map energyValue).getD "" = "high" then
      (withCleanup.1 + 10, withCleanup.2 ++ ["Mental rest break after high cognitive load"])
    else withCleanup
  let withPhysical : Nat × List String :=
    if (a.physical_energy.map energyValue).getD "" = "high" then
      (withMental.1 + 5, withMental.2 ++ ["Physical rest break after high energy activity"])
    else withMental
  let withTransition : Nat × List String :=
    if a.format ≠ next.format then
      (withPhysical.1 + 5,
       withPhysical.2 ++
         ["Transition break from " ++ formatValue a.format ++ " to " ++ formatValue next.format])
    else withPhysical
  if ¬ withTransition.2.isEmpty ∧ 0 < withTransition.1 then
    some { duration := round_up_to_nearest_5_minutes withTransition.1
           description := joinSemicolonSpace withTransition.2
           reasons := withTransition.2 }
  else none

/-- `RecommendationPipeline._assign_breaks_to_activities` on the index list
of one candidate: walk the non-final positions (those with a successor) and
assign the computed break, leaving the store untouched where no break is
due.  The final position is structurally skipped, and
`_validate_break_placement` is a no-op. -/
def assignBreaksToActivities (input : List ActivityModel) :
    List Nat → BreakStore → BreakStore
  | [], store => store
  | [_], store => store
  | i :: j :: rest, store =>
      let a := input.getD i defaultActivity
      let next := input.getD j defaultActivity
      let store' : BreakStore :=
        match breakForPair a next with
        | some b => fun n => if n = i then some b else store n
        | none => store
      assignBreaksToActivities input (j :: rest) store'

/-- The `top_activities`/combination part of
`RecommendationPipeline._score_all_activities_without_duration`: for `k`
in `range(2, min(max_activity_count + 1, 6))`, all `k`-combinations of the
first `LESSON_PLAN_TOP_ACTIVITIES_LIMIT` filtered activities, in filtered
order. -/
def lessonPlanCombos (max_activity_count : Int) (filteredIdx : List Nat) : List (List Nat) :=
  let top_activities := filteredIdx.take LESSON_PLAN_TOP_ACTIVITIES_LIMIT
  (pyRange 2 (min (max_activity_count + 1) 6)).flatMap fun k =>
    if k ≤ top_activities.length then combinations k top_activities else []

/-- `RecommendationPipeline._score_all_activities_without_duration`, over
activity indices with the current break store. -/
def score_all_activities_without_duration (pc : List PriorityCategory)
    (criteria : SearchCriteria) (max_activity_count : Int)
    (input : List ActivityModel) (store : BreakStore)
    (filteredIdx : List Nat) : List (List Nat × ScoreModel) :=
  let singles := filteredIdx.map fun i =>
    ([i], score_activity_without_duration pc (materialize input store i) criteria)
  let plans :=
    if 1 < max_activity_count ∧ 1 < filteredIdx.length then
      (lessonPlanCombos max_activity_count filteredIdx).map fun combo =>
        (combo, score_sequence_without_duration pc (combo.map (materialize input store)) criteria)
    else []
  singles ++ plans

/-- `RecommendationPipeline._add_breaks_if_requested`: when breaks are
requested, assign breaks to every multi-activity candidate in ranked order
(the candidate index lists themselves are unchanged — `activities.copy()`
copies only the list container, the activity objects stay shared). -/
def add_breaks_if_requested (include_breaks : Bool) (input : List ActivityModel)
    (results : List (List Nat × ScoreModel)) (store : BreakStore) : BreakStore :=
  if include_breaks then
    results.foldl
      (fun st c => if 1 < c.1.length then assignBreaksToActivities input c.1 st else st)
      store
  else store

/-- `RecommendationPipeline._rescore_duration_and_rank`: rescore each
candidate with duration (singles via `score_activity`, sequences via
`score_sequence`), skipping empty candidates, then stable-sort descending
by the new total score. -/
def rescore_duration_and_rank (pc : List PriorityCategory) (criteria : SearchCriteria)
    (input : List ActivityModel) (store : BreakStore)
    (results : List (List Nat × ScoreModel)) : List (List Nat × ScoreModel) :=
  let rescored := results.filterMap fun c =>
    match c.1 with
    | [] => none
    | [i] => some ([i], score_activity pc (materialize input store i) criteria)
    | is => some (is, score_sequence pc (is.map (materialize input store)) criteria)
  stableSortByScoreDesc (fun c => c.2.total_score) rescored

/-- `RecommendationPipeline.process`, returning the final candidate index
lists together with the final break store. -/
def processFull (pc : List PriorityCategory) (criteria : SearchCriteria)
    (include_breaks : Bool) (max_activity_count limit : Int)
    (input : List ActivityModel) (store0 : BreakStore) :
    List (List Nat × ScoreModel) × BreakStore :=
  let filteredIdx :=
    (List.range input.length).filter fun i =>
      passesHardFilters criteria (input.getD i defaultActivity)
  let scored := score_all_activities_without_duration pc criteria max_activity_count
    input store0 filteredIdx
  let ranked := stableSortByScoreDesc (fun c => c.2.total_score) scored
  let store1 := add_breaks_if_requested include_breaks input ranked store0
  let rescored := rescore_duration_and_rank pc criteria input store1 ranked
  (pySliceTo limit rescored, store1)

/-- `RecommendationPipeline.process` as the caller observes it: each
returned candidate is materialized with the final break store (the caller
reads the shared, possibly mutated activity objects). -/
def process (pc : List PriorityCategory) (criteria : SearchCriteria)
    (include_breaks : Bool) (max_activity_count limit : Int)
    (input : List ActivityModel) : List (List ActivityModel × ScoreModel) :=
  let (cands, store) :=
    processFull pc criteria include_breaks max_activity_count limit input (fun _ => none)
  cands.map fun c => (c.1.map (materialize input store), c.2)

/-! ## Claim theorems -/

/-- C7: Filter idempotence: applying the hard filter twice gives the same
result as applying it once, for every activity list and criteria; the
filter is a pure, order-preserving `List.filter`. -/
theorem apply_hard_filters_idempotent (activities : List ActivityModel)
    (criteria : SearchCriteria) :
    apply_hard_filters (apply_hard_filters activities criteria) criteria =
      apply_hard_filters activities criteria := by
  unfold apply_hard_filters
  induction activities with
  | nil => rfl
  | cons a l ih =>
      by_cases h : passesHardFilters criteria a
      · simp [List.filter_cons, h, ih]
      · simp [List.filter_cons, h, ih]

/-- C9: Limit respected: for every invocation of the pipeline with a
non-negative limit, the returned recommendation list has at most `limit`
elements. -/
theorem process_length_le_limit (pc : List PriorityCategory) (criteria : SearchCriteria)
    (include_breaks : Bool) (max_activity_count limit : Int)
    (input : List ActivityModel) (h : 0 ≤ limit) :
    ((process pc criteria include_breaks max_activity_count limit input).length : Int) ≤ limit := by
  have key : ∀ (l : List (List Nat × ScoreModel)),
      ((pySliceTo limit l).length : Int) ≤ limit := by
    intro l
    unfold pySliceTo
    rw [if_pos h]
    have := List.length_take limit.toNat l
    have h2 : (l.take limit.toNat).length ≤ limit.toNat := by
      rw [this]
      exact min_le_left _ _
    omega
  unfold process
  simp only [List.length_map]
  exact key _

/-- C9 witness. -/
theorem process_length_le_limit_witness :
    (0 : Int) ≤ 3 ∧
      ((process [] {} false 2 3
        [{ name := "w", age_min := 6, age_max := 10, format := .DIGITAL,
           bloom_level := .APPLY, duration_min_minutes := 20 }]).length : Int) ≤ 3 :=
  ⟨by decide, process_length_le_limit [] {} false 2 3 _ (by decide)⟩

/-- C10: Frame effect: the pipeline mutates nothing but the transient
`break_after` slots (in the embedding, all other fields are read from the
caller's immutable list, so only the break store can change); with
`include_breaks = false` the break store is returned untouched, and in
particular every activity in the returned candidates still has the initial
`break_after = none`. -/
theorem process_no_breaks_frame (pc : List PriorityCategory) (criteria : SearchCriteria)
    (max_activity_count limit : Int) (input : List ActivityModel) :
    (∀ store0 : BreakStore,
        (processFull pc criteria false max_activity_count limit input store0).2 = store0) ∧
      ∀ r ∈ process pc criteria false max_activity_count limit input,
        ∀ a ∈ r.1, a.break_after = none := by
  constructor
  · intro store0
    rfl
  · intro r hr a ha
    unfold process at hr
    simp only [List.mem_map] at hr
    obtain ⟨c, _, rfl⟩ := hr
    simp only [List.mem_map] at ha
    obtain ⟨i, _, rfl⟩ := ha
    rfl

/-- C1 (code bug): Bloom-level match scoring at the failing input: an
activity at level `apply` scored against the single criterion level
`analyze` (one step away in the canonical order) gets 0, not the specified
50, because `target_bloom.value in BLOOM_ORDER` compares the lowercase enum
value against the capitalized `BLOOM_ORDER` entries and is always false;
the exact-match path (100), the maximum over criterion levels, and the
empty-criteria 0 still behave as specified. -/
theorem bloom_adjacent_level_scores_zero :
    (score_bloom_level_match []
      { name := "Sorting race", age_min := 8, age_max := 12, format := .UNPLUGGED,
        bloom_level := .APPLY, duration_min_minutes := 30 }
      { bloom_levels := some [.ANALYZE] }).score = 0 ∧
    (score_bloom_level_match []
      { name := "Sorting race", age_min := 8, age_max := 12, format := .UNPLUGGED,
        bloom_level := .APPLY, duration_min_minutes := 30 }
      { bloom_levels := some [.APPLY, .ANALYZE] }).score = 100 := by
  constructor
  · decide
  · decide

/-- C2 (code bug): on this three-activity input with `include_breaks=true`,
the returned list contains a two-activity candidate whose LAST activity
carries a `break_after`: the same activity object is non-final in another
candidate, the break assigned there mutates the shared object, and the
leading candidate `[B, A]` of the returned ranking exhibits the break on
its final member `A`. -/
theorem trailing_break_on_last_activity :
    ((process [] {} true 2 10
      [{ name := "B", age_min := 8, age_max := 12, format := .UNPLUGGED,
         bloom_level := .REMEMBER, duration_min_minutes := 30 },
       { name := "A", age_min := 8, age_max := 12, format := .UNPLUGGED,
         bloom_level := .REMEMBER, duration_min_minutes := 30,
         mental_load := some .HIGH },
       { name := "C", age_min := 8, age_max := 12, format := .UNPLUGGED,
         bloom_level := .REMEMBER, duration_min_minutes := 30 }]).any fun r =>
        decide (1 < r.1.length) &&
          (r.1.getLast?.elim false fun a => a.break_after.isSome)) = true := by
  decide



theorem ratSum_weighted (l : List (String × CategoryScore)) :
    ratSum ((l.map Prod.snd).map fun c => ratMul (c.score : ℚ) (c.impact : ℚ)) =
      (((l.map fun p => p.2.score * p.2.impact).sum : Nat) : ℚ) := by
  rw [ratSum_eq]
  induction l with
  | nil => simp
  | cons x xs ih =>
      rw [List.map_cons, List.map_cons, List.sum_cons, ih, ratMul_eq,
        List.map_cons, List.sum_cons]
      push_cast
      ring

theorem ratSum_impacts (l : List (String × CategoryScore)) :
    ratSum ((l.map Prod.snd).map fun c => (c.impact : ℚ)) =
      (((l.map fun p => p.2.impact).sum : Nat) : ℚ) := by
  rw [ratSum_eq]
  induction l with
  | nil => simp
  | cons x xs ih =>
      rw [List.map_cons, List.map_cons, List.sum_cons, ih,
        List.map_cons, List.sum_cons]
      push_cast
      ring

theorem clampScore_natDiv (W T : ℕ) :
    clampScore (ratDiv (W : ℚ) (T : ℚ)) = min (W / T) 100 := by
  unfold clampScore
  rw [ratDiv_eq, Rat.floor_natCast_div_natCast, ← Int.natCast_div]
  have h0 : (0:ℤ) ≤ ((W / T : ℕ) : ℤ) := Int.natCast_nonneg _
  rw [max_eq_left h0]
  rcases le_total ((W / T : ℕ)) 100 with h | h
  · rw [min_eq_left (by exact_mod_cast h), Int.toNat_natCast, min_eq_left h]
  · rw [min_eq_right (by exact_mod_cast h), min_eq_right h]
    rfl

theorem weighted_total_eq (cs : List (String × CategoryScore)) (hne : cs ≠ [])
    (hw : 0 < (cs.map fun p => p.2.impact).sum) :
    calculate_weighted_total cs =
      min ((cs.map fun p => p.2.score * p.2.impact).sum /
            (cs.map fun p => p.2.impact).sum) 100 := by
  rcases cs with _ | ⟨x, rest⟩
  · exact absurd rfl hne
  · simp only [calculate_weighted_total, List.isEmpty_cons, Bool.false_eq_true, if_false]
    rw [ratSum_weighted (x :: rest), ratSum_impacts (x :: rest)]
    rw [if_neg (by
      have hz : (((x :: rest).map fun p => p.2.impact).sum : Nat) ≠ 0 := by omega
      exact Nat.cast_ne_zero.mpr hz)]
    exact clampScore_natDiv _ _

/-- C3: Weighted total: for every non-empty category-score map with positive
impact sum, the total is `floor(Σ(score·impact) / Σ(impact))` clamped to
`[0,100]` (in ℕ the lower clamp is vacuous), and the total depends only on
the `(score, impact)` projection of the map — the priority multiplier and
flag are never folded in, so any two maps agreeing on scores and impacts
(whatever priority categories produced them) get the same total. -/
theorem weighted_total_formula_and_priority_free
    (cs cs' : List (String × CategoryScore))
    (hne : cs ≠ [])
    (hw : 0 < (cs.map fun p => p.2.impact).sum) :
    calculate_weighted_total cs =
      min ((cs.map fun p => p.2.score * p.2.impact).sum /
            (cs.map fun p => p.2.impact).sum) 100 ∧
    ((cs.map fun p => (p.2.score, p.2.impact)) = (cs'.map fun p => (p.2.score, p.2.impact)) →
      calculate_weighted_total cs = calculate_weighted_total cs') := by
  refine ⟨weighted_total_eq cs hne hw, fun hproj => ?_⟩
  have hne' : cs' ≠ [] := by
    intro hcontra
    subst hcontra
    simp only [List.map_nil, List.map_eq_nil_iff] at hproj
    exact hne hproj
  have hws : (cs.map fun p => p.2.score * p.2.impact) =
      (cs'.map fun p => p.2.score * p.2.impact) := by
    have h2 := congrArg (List.map fun q : Nat × Nat => q.1 * q.2) hproj
    simpa [List.map_map, Function.comp] using h2
  have hts : (cs.map fun p => p.2.impact) = (cs'.map fun p => p.2.impact) := by
    have h2 := congrArg (List.map fun q : Nat × Nat => q.2) hproj
    simpa [List.map_map, Function.comp] using h2
  have hw' : 0 < (cs'.map fun p => p.2.impact).sum := hts ▸ hw
  rw [weighted_total_eq cs hne hw, weighted_total_eq cs' hne' hw', hws, hts]

/-- C3 witness. -/
theorem weighted_total_formula_and_priority_free_witness :
    calculate_weighted_total
        [("duration_fit",
          { category := "duration_fit", score := 80, impact := 3,
            priority_multiplier := 2, is_priority := true })] = 80 := by
  have h := (weighted_total_formula_and_priority_free
    [("duration_fit",
      { category := "duration_fit", score := 80, impact := 3,
        priority_multiplier := 2, is_priority := true })]
    [] (by decide) (by decide)).1
  rw [h]
  decide

/-- The distance from a target age to the activity's age window, as the
spec describes it: 0 inside the window, else the distance to the nearer
bound (the code's `if target_age < age_min` branch). -/
def specAgeDistance (age_min age_max t : Int) : Int :=
  if age_min ≤ t ∧ t ≤ age_max then 0
  else if t < age_min then age_min - t else t - age_max

theorem specAgeDistance_nonneg (age_min age_max t : Int) (hv : age_min ≤ age_max) :
    0 ≤ specAgeDistance age_min age_max t := by
  unfold specAgeDistance
  split_ifs <;> omega

theorem age_score_closed_form (pc : List PriorityCategory) (a : ActivityModel)
    (c : SearchCriteria) (t : Int) (hc : c.target_age = some t)
    (hv : a.age_min ≤ a.age_max) :
    (score_age_appropriateness pc a c).score =
      (if specAgeDistance a.age_min a.age_max t = 0 then 100
       else (5 - specAgeDistance a.age_min a.age_max t).toNat * 20) := by
  simp only [score_age_appropriateness, hc]
  by_cases hin : a.age_min ≤ t ∧ t ≤ a.age_max
  · rw [if_pos hin]
    rw [specAgeDistance, if_pos hin, if_pos rfl]
    decide
  · rw [if_neg hin]
    have hd_def : specAgeDistance a.age_min a.age_max t =
        (if t < a.age_min then a.age_min - t else t - a.age_max) := by
      rw [specAgeDistance, if_neg hin]
    set d : Int := if t < a.age_min then a.age_min - t else t - a.age_max with hd
    have hd1 : 1 ≤ d := by
      push_neg at hin
      rw [hd]
      split_ifs with h1
      · omega
      · have h3 : a.age_max < t := hin (by omega)
        omega
    rw [hd_def, if_neg (show ¬ d = 0 by omega)]
    by_cases hd5 : d ≤ AGE_MAX_DISTANCE
    · rw [if_pos hd5]
      have harg : ratMul (ratDiv ((AGE_MAX_DISTANCE - d : Int) : ℚ) (AGE_MAX_DISTANCE : ℚ)) 100 =
          (((5 - d) * 20 : Int) : ℚ) := by
        rw [ratMul_eq, ratDiv_eq]
        unfold AGE_MAX_DISTANCE
        push_cast
        ring
      rw [harg, clampScore_intCast]
      have h5 : d ≤ 5 := hd5
      have hnn : (0:Int) ≤ (5 - d) * 20 := by omega
      have hub : (5 - d) * 20 ≤ (100:Int) := by omega
      rw [max_eq_left hnn, min_eq_left hub]
      omega
    · rw [if_neg hd5]
      have h5 : ¬ d ≤ 5 := hd5
      have : (5 - d).toNat = 0 := by omega
      rw [this]
      decide

/-- C6: Age-appropriateness monotone decay: for a fixed activity age window
with `age_min ≤ age_max`, the score is 100 whenever the target age lies
inside the window, is non-increasing as the distance to the nearest bound
grows, and is 0 for every distance strictly greater than 5. -/
theorem age_appropriateness_monotone_decay (pc : List PriorityCategory)
    (a : ActivityModel) (c1 c2 : SearchCriteria) (t1 t2 : Int)
    (h1 : c1.target_age = some t1) (h2 : c2.target_age = some t2)
    (hv : a.age_min ≤ a.age_max) :
    ((a.age_min ≤ t1 ∧ t1 ≤ a.age_max) → (score_age_appropriateness pc a c1).score = 100) ∧
    (5 < specAgeDistance a.age_min a.age_max t1 →
      (score_age_appropriateness pc a c1).score = 0) ∧
    (specAgeDistance a.age_min a.age_max t1 ≤ specAgeDistance a.age_min a.age_max t2 →
      (score_age_appropriateness pc a c2).score ≤ (score_age_appropriateness pc a c1).score) := by
  have e1 := age_score_closed_form pc a c1 t1 h1 hv
  have e2 := age_score_closed_form pc a c2 t2 h2 hv
  have n1 := specAgeDistance_nonneg a.age_min a.age_max t1 hv
  have n2 := specAgeDistance_nonneg a.age_min a.age_max t2 hv
  refine ⟨fun hin => ?_, fun hbig => ?_, fun hmono => ?_⟩
  · rw [e1, if_pos (by rw [specAgeDistance, if_pos hin])]
  · rw [e1, if_neg (by omega)]
    omega
  · rw [e1, e2]
    by_cases hz1 : specAgeDistance a.age_min a.age_max t1 = 0
    · rw [if_pos hz1]
      split_ifs <;> omega
    · rw [if_neg hz1, if_neg (by omega)]
      omega

/-- C6 witness: window [10,14], target ages 16 (distance 2, score 60) and
17 (distance 3, score 40). -/
theorem age_appropriateness_monotone_decay_witness :
    (score_age_appropriateness []
      { name := "w6", age_min := 10, age_max := 14, format := .UNPLUGGED,
        bloom_level := .REMEMBER, duration_min_minutes := 30 }
      { target_age := some 17 }).score ≤
    (score_age_appropriateness []
      { name := "w6", age_min := 10, age_max := 14, format := .UNPLUGGED,
        bloom_level := .REMEMBER, duration_min_minutes := 30 }
      { target_age := some 16 }).score :=
  (age_appropriateness_monotone_decay []
    { name := "w6", age_min := 10, age_max := 14, format := .UNPLUGGED,
      bloom_level := .REMEMBER, duration_min_minutes := 30 }
    { target_age := some 16 } { target_age := some 17 } 16 17
    rfl rfl (by decide)).2.2 (by decide)

theorem clampScore_of_bounds (q : ℚ) (h0 : (0:Int) ≤ ⌊q⌋) (h1 : ⌊q⌋ ≤ 100) :
    clampScore q = (⌊q⌋).toNat := by
  unfold clampScore
  rw [max_eq_left h0, min_eq_left h1]

theorem mkRat_one_two : (mkRat 1 2 : ℚ) = 1/2 := by
  rw [Rat.mkRat_eq_div]
  norm_num

/-- The claim's per-activity midpoint `(min + max)/2`, with `min` standing
in when `max` is absent (spec wording for `duration_max_minutes or
duration_min_minutes`). -/
def specMidpoint (a : ActivityModel) : Nat :=
  (a.duration_min_minutes + a.duration_max_minutes.getD a.duration_min_minutes) / 2

/-- The claim's total duration of a candidate: every activity's midpoint
plus every non-final activity's `break_after` duration; a break on the
last position is never counted. -/
def specTotalDuration : List ActivityModel → Nat
  | [] => 0
  | [a] => specMidpoint a
  | a :: rest =>
      specMidpoint a +
        (match a.break_after with | some b => b.duration | none => 0) +
        specTotalDuration rest

/-- The claim's duration-fit score: 100 on exact match (subsumed by ratio
0), `(1 − ratio) × 100` (integer-truncated) for deviation ratio
`|total − target| / target ≤ 1/2`, 0 beyond, and 0 when there is no target
or the total is 0. -/
def specDurationFitScore (activities : List ActivityModel)
    (criteria : SearchCriteria) : Nat :=
  match criteria.target_duration with
  | none => 0
  | some t =>
      let total := specTotalDuration activities
      if total = 0 then 0
      else
        let ratio : ℚ := |(total : ℚ) - (t : ℚ)| / (t : ℚ)
        if ratio ≤ 1/2 then (⌊(1 - ratio) * 100⌋).toNat else 0

theorem midpointDuration_eq_spec (a : ActivityModel)
    (h : ∀ m, a.duration_max_minutes = some m → a.duration_min_minutes ≤ m) :
    midpointDuration a = specMidpoint a := by
  rcases hm : a.duration_max_minutes with _ | m
  · simp [midpointDuration, specMidpoint, hm]
  · have hle := h m hm
    by_cases hz : m = 0
    · subst hz
      simp [midpointDuration, specMidpoint, hm]
      omega
    · simp [midpointDuration, specMidpoint, hm, hz]

theorem totalDurationOf_eq_spec : ∀ (activities : List ActivityModel),
    (∀ a ∈ activities, ∀ m, a.duration_max_minutes = some m →
      a.duration_min_minutes ≤ m) →
    totalDurationOf activities = specTotalDuration activities := by
  intro activities
  induction activities with
  | nil => intro _; rfl
  | cons a rest ih =>
      intro h
      cases rest with
      | nil =>
          simp only [totalDurationOf, specTotalDuration]
          exact midpointDuration_eq_spec a (h a (List.mem_cons_self a _))
      | cons b rest' =>
          simp only [totalDurationOf, specTotalDuration]
          rw [midpointDuration_eq_spec a (h a (List.mem_cons_self a _)),
            ih (fun x hx => h x (List.mem_cons_of_mem a hx))]

theorem clampScore_branch (r : ℚ) (hr0 : 0 ≤ r) :
    clampScore (if r ≤ 1/2 then (1 - r) * 100 else 0) =
      (if r ≤ 1/2 then (⌊(1 - r) * 100⌋).toNat else 0) := by
  split_ifs with h
  · apply clampScore_of_bounds
    · exact Int.le_floor.mpr (by push_cast; linarith)
    · calc ⌊(1 - r) * 100⌋ ≤ ⌊(100:ℚ)⌋ := Int.floor_mono (by linarith)
        _ = 100 := by
          rw [show ((100:ℚ)) = ((100:Int):ℚ) by norm_num, Int.floor_intCast]
  · decide

/-- C4: Duration-fit scoring matches the claim: the candidate total is the
sum of midpoints `(min+max)/2` (min standing in for an absent max) plus
every non-final `break_after` duration (never the last position's); an
exact match scores 100, a deviation ratio `|total − target|/target ≤ 1/2`
scores the integer part of `(1 − ratio)·100`, a larger ratio scores 0, and
the score is 0 with no target or a zero total.  Hypotheses: a present
`duration_max_minutes` is `≥ duration_min_minutes` (the data-model
invariant; Python's `or` treats a 0 max like an absent one) and the target
is positive (Python would raise `ZeroDivisionError` on target 0). -/
theorem duration_fit_matches_spec (pc : List PriorityCategory)
    (activities : List ActivityModel) (criteria : SearchCriteria) (t : Nat)
    (ht : criteria.target_duration = some t) (htpos : 0 < t)
    (hvalid : ∀ a ∈ activities, ∀ m, a.duration_max_minutes = some m →
      a.duration_min_minutes ≤ m) :
    totalDurationOf activities = specTotalDuration activities ∧
    (score_duration_fit pc activities criteria).score =
      specDurationFitScore activities criteria := by
  have hT := totalDurationOf_eq_spec activities hvalid
  refine ⟨hT, ?_⟩
  have htQ : (0:ℚ) < (t:ℚ) := by exact_mod_cast htpos
  simp only [score_duration_fit, specDurationFitScore, ht, hT]
  by_cases h0 : specTotalDuration activities = 0
  · simp [h0]
  · rw [if_neg h0, if_neg h0]
    set T := specTotalDuration activities with hTdef
    rcases Nat.lt_trichotomy T t with hlt | hEq | hgt
    · have hne : T ≠ t := Nat.ne_of_lt hlt
      have hltQ : (T:ℚ) < (t:ℚ) := by exact_mod_cast hlt
      rw [if_neg hne, if_pos hlt]
      have habs : |(T:ℚ) - (t:ℚ)| = (t:ℚ) - (T:ℚ) := by
        rw [abs_of_neg (by linarith), neg_sub]
      rw [habs, ratDiv_eq, ratSub_eq, mkRat_one_two]
      have hr0 : (0:ℚ) ≤ ((t:ℚ) - (T:ℚ)) / (t:ℚ) :=
        div_nonneg (by linarith) (le_of_lt htQ)
      have hbr := clampScore_branch (((t:ℚ) - (T:ℚ)) / (t:ℚ)) hr0
      simp only [ratSub_eq, ratMul_eq] at hbr ⊢
      exact hbr
    · rw [if_pos hEq, hEq]
      have habs : |(t:ℚ) - (t:ℚ)| = 0 := by simp
      rw [habs, zero_div]
      have hcond : ((0:ℚ) ≤ 1/2) := by norm_num
      rw [if_pos hcond]
      have h100 : ((1:ℚ) - 0) * 100 = ((100:Int):ℚ) := by norm_num
      rw [h100, Int.floor_intCast]
      show clampScore (100:ℚ) = (100:Int).toNat
      decide
    · have hne : T ≠ t := Nat.ne_of_gt hgt
      have hgtQ : (t:ℚ) < (T:ℚ) := by exact_mod_cast hgt
      rw [if_neg hne, if_neg (by omega)]
      have habs : |(T:ℚ) - (t:ℚ)| = (T:ℚ) - (t:ℚ) := by
        rw [abs_of_pos (by linarith)]
      rw [habs, ratDiv_eq, ratSub_eq, mkRat_one_two]
      have hr0 : (0:ℚ) ≤ ((T:ℚ) - (t:ℚ)) / (t:ℚ) :=
        div_nonneg (by linarith) (le_of_lt htQ)
      have hbr := clampScore_branch (((T:ℚ) - (t:ℚ)) / (t:ℚ)) hr0
      simp only [ratSub_eq, ratMul_eq] at hbr ⊢
      exact hbr

/-- C4 witness: a single activity with midpoint (40+50)/2 = 45 against
target 30: ratio = 1/2, score = 50 (scenario E's boundary). -/
theorem duration_fit_matches_spec_witness :
    (score_duration_fit []
      [{ name := "w4", age_min := 8, age_max := 12, format := .UNPLUGGED,
         bloom_level := .REMEMBER, duration_min_minutes := 40,
         duration_max_minutes := some 50 }]
      { target_duration := some 30 }).score =
    specDurationFitScore
      [{ name := "w4", age_min := 8, age_max := 12, format := .UNPLUGGED,
         bloom_level := .REMEMBER, duration_min_minutes := 40,
         duration_max_minutes := some 50 }]
      { target_duration := some 30 } ∧
    (score_duration_fit []
      [{ name := "w4", age_min := 8, age_max := 12, format := .UNPLUGGED,
         bloom_level := .REMEMBER, duration_min_minutes := 40,
         duration_max_minutes := some 50 }]
      { target_duration := some 30 }).score = 50 :=
  ⟨(duration_fit_matches_spec []
      [{ name := "w4", age_min := 8, age_max := 12, format := .UNPLUGGED,
         bloom_level := .REMEMBER, duration_min_minutes := 40,
         duration_max_minutes := some 50 }]
      { target_duration := some 30 } 30 rfl (by decide)
      (by
        intro a ha m hm
        simp only [List.mem_singleton] at ha
        subst ha
        dsimp only at hm ⊢
        simp only [Option.some.injEq] at hm
        omega)).2,
   by decide⟩

theorem weighted_total_le_100 (l : List (String × CategoryScore)) :
    calculate_weighted_total l ≤ 100 := by
  unfold calculate_weighted_total
  split
  · omega
  · dsimp only
    split
    · omega
    · exact clampScore_le_100 _

theorem score_age_le_100 (pc : List PriorityCategory) (a : ActivityModel)
    (c : SearchCriteria) : (score_age_appropriateness pc a c).score ≤ 100 := by
  rcases h : c.target_age with _ | t
  · simp [score_age_appropriateness, h]
  · simp only [score_age_appropriateness, h]
    exact clampScore_le_100 _

theorem score_bloom_le_100 (pc : List PriorityCategory) (a : ActivityModel)
    (c : SearchCriteria) : (score_bloom_level_match pc a c).score ≤ 100 := by
  rcases h : c.bloom_levels with _ | ls
  · simp [score_bloom_level_match, h]
  · simp only [score_bloom_level_match, h]
    split
    · simp
    · exact clampScore_le_100 _

theorem score_topic_le_100 (pc : List PriorityCategory) (a : ActivityModel)
    (c : SearchCriteria) : (score_topic_relevance pc a c).score ≤ 100 := by
  rcases h : c.preferred_topics with _ | ts
  · simp [score_topic_relevance, h]
  · simp only [score_topic_relevance, h]
    split
    · simp
    · split
      · simp
      · exact clampScore_le_100 _

theorem score_duration_le_100 (pc : List PriorityCategory)
    (acts : List ActivityModel) (c : SearchCriteria) :
    (score_duration_fit pc acts c).score ≤ 100 := by
  rcases h : c.target_duration with _ | t
  · simp [score_duration_fit, h]
  · simp only [score_duration_fit, h]
    split
    · simp
    · exact clampScore_le_100 _

theorem score_cohesion_le_100 (acts : List ActivityModel) :
    (score_series_cohesion_category acts).score ≤ 100 := by
  unfold score_series_cohesion_category
  split
  · decide
  · dsimp only
    exact min_le_right _ _

theorem lookup_score_le : ∀ (l : List (String × CategoryScore)),
    (∀ p ∈ l, p.2.score ≤ 100) → ∀ name : String,
    ((List.lookup name l).map CategoryScore.score).getD 0 ≤ 100 := by
  intro l
  induction l with
  | nil => intro _ name; simp [List.lookup]
  | cons x t ih =>
      intro h name
      rcases x with ⟨k, v⟩
      rw [List.lookup]
      rcases hx : (name == k) with _ | _
      · exact ih (fun p hp => h p (List.mem_cons_of_mem _ hp)) name
      · simpa using h (k, v) (List.mem_cons_self _ _)

theorem avg_scores_le_100 (pc : List PriorityCategory) (models : List ScoreModel)
    (h : ∀ m ∈ models, ∀ p ∈ m.category_scores, p.2.score ≤ 100) :
    ∀ q ∈ calculate_average_individual_scores pc models, q.2.score ≤ 100 := by
  rcases hm : models with _ | ⟨first, rest⟩
  · intro q hq
    simp [calculate_average_individual_scores] at hq
  · intro q hq
    simp only [calculate_average_individual_scores, List.mem_map] at hq
    obtain ⟨name, _, rfl⟩ := hq
    dsimp only
    have hterm : ∀ m ∈ first :: rest, lookupCategoryScore name m ≤ 100 := by
      intro m hmem
      exact lookup_score_le m.category_scores (h m (hm ▸ hmem)) name
    have hsum : ((first :: rest).map (lookupCategoryScore name)).sum ≤
        100 * (first :: rest).length := by
      calc ((first :: rest).map (lookupCategoryScore name)).sum
          ≤ ((first :: rest).map (lookupCategoryScore name)).length • 100 := by
            apply List.sum_le_card_nsmul
            intro x hx
            simp only [List.mem_map] at hx
            obtain ⟨m, hmem, rfl⟩ := hx
            exact hterm m hmem
        _ = 100 * (first :: rest).length := by
            simp [List.length_map, Nat.smul_one_eq_cast]
            ring
    have hlen : 0 < (first :: rest).length := by simp
    calc ((first :: rest).map (lookupCategoryScore name)).sum / (first :: rest).length
        ≤ (100 * (first :: rest).length) / (first :: rest).length :=
          Nat.div_le_div_right hsum
      _ = 100 := Nat.mul_div_cancel 100 hlen

theorem mem_dictInsert : ∀ (l : List (String × CategoryScore)) (k : String)
    (v : CategoryScore) (p : String × CategoryScore),
    p ∈ dictInsert k v l → p = (k, v) ∨ p ∈ l := by
  intro l k v
  induction l with
  | nil =>
      intro p hp
      simp [dictInsert] at hp
      exact Or.inl hp
  | cons x t ih =>
      intro p hp
      rw [dictInsert] at hp
      split at hp
      · rcases List.mem_cons.mp hp with h1 | h1
        · exact Or.inl h1
        · exact Or.inr (List.mem_cons_of_mem _ h1)
      · rcases List.mem_cons.mp hp with h1 | h1
        · exact Or.inr (h1 ▸ List.mem_cons_self _ _)
        · rcases ih p h1 with h2 | h2
          · exact Or.inl h2
          · exact Or.inr (List.mem_cons_of_mem _ h2)

theorem score_activity_bounded (pc : List PriorityCategory) (a : ActivityModel)
    (c : SearchCriteria) :
    (score_activity pc a c).total_score ≤ 100 ∧
      ∀ p ∈ (score_activity pc a c).category_scores, p.2.score ≤ 100 := by
  constructor
  · simp only [score_activity]
    exact weighted_total_le_100 _
  · intro p hp
    simp only [score_activity, List.mem_cons, List.not_mem_nil, or_false] at hp
    rcases hp with rfl | rfl | rfl | rfl
    · exact score_age_le_100 pc a c
    · exact score_bloom_le_100 pc a c
    · exact score_topic_le_100 pc a c
    · exact score_duration_le_100 pc [a] c

theorem score_activity_without_duration_bounded (pc : List PriorityCategory)
    (a : ActivityModel) (c : SearchCriteria) :
    (score_activity_without_duration pc a c).total_score ≤ 100 ∧
      ∀ p ∈ (score_activity_without_duration pc a c).category_scores,
        p.2.score ≤ 100 := by
  constructor
  · simp only [score_activity_without_duration]
    exact weighted_total_le_100 _
  · intro p hp
    simp only [score_activity_without_duration, List.mem_cons, List.not_mem_nil,
      or_false] at hp
    rcases hp with rfl | rfl | rfl
    · exact score_age_le_100 pc a c
    · exact score_bloom_le_100 pc a c
    · exact score_topic_le_100 pc a c

theorem score_sequence_bounded (pc : List PriorityCategory)
    (acts : List ActivityModel) (c : SearchCriteria) :
    (score_sequence pc acts c).total_score ≤ 100 ∧
      ∀ p ∈ (score_sequence pc acts c).category_scores, p.2.score ≤ 100 := by
  constructor
  · simp only [score_sequence]
    exact weighted_total_le_100 _
  · intro p hp
    simp only [score_sequence] at hp
    rcases mem_dictInsert _ _ _ _ hp with rfl | hp2
    · exact score_duration_le_100 pc acts c
    · rcases mem_dictInsert _ _ _ _ hp2 with rfl | hp3
      · exact score_cohesion_le_100 acts
      · refine avg_scores_le_100 pc _ ?_ p hp3
        intro m hm q hq
        simp only [List.mem_map] at hm
        obtain ⟨a, _, rfl⟩ := hm
        exact (score_activity_bounded pc a c).2 q hq

theorem score_sequence_without_duration_bounded (pc : List PriorityCategory)
    (acts : List ActivityModel) (c : SearchCriteria) :
    (score_sequence_without_duration pc acts c).total_score ≤ 100 ∧
      ∀ p ∈ (score_sequence_without_duration pc acts c).category_scores,
        p.2.score ≤ 100 := by
  constructor
  · simp only [score_sequence_without_duration]
    exact weighted_total_le_100 _
  · intro p hp
    simp only [score_sequence_without_duration] at hp
    rcases mem_dictInsert _ _ _ _ hp with rfl | hp2
    · exact score_cohesion_le_100 acts
    · refine avg_scores_le_100 pc _ ?_ p hp2
      intro m hm q hq
      simp only [List.mem_map] at hm
      obtain ⟨a, _, rfl⟩ := hm
      exact (score_activity_without_duration_bounded pc a c).2 q hq

/-- C5: Score boundedness: every `CategoryScore.score` produced by any of
the four scoring entry points (including the per-category averages of
sequences) and every `ScoreModel.total_score` lies in `[0, 100]` — scores
are naturals in the embedding, so the lower bound is by type and the upper
bound is proved for all activities, sequences, criteria and priority
categories. -/
theorem all_scores_bounded :
    (∀ (pc : List PriorityCategory) (a : ActivityModel) (c : SearchCriteria),
      (score_activity pc a c).total_score ≤ 100 ∧
        ∀ p ∈ (score_activity pc a c).category_scores, p.2.score ≤ 100) ∧
    (∀ (pc : List PriorityCategory) (a : ActivityModel) (c : SearchCriteria),
      (score_activity_without_duration pc a c).total_score ≤ 100 ∧
        ∀ p ∈ (score_activity_without_duration pc a c).category_scores,
          p.2.score ≤ 100) ∧
    (∀ (pc : List PriorityCategory) (acts : List ActivityModel) (c : SearchCriteria),
      (score_sequence pc acts c).total_score ≤ 100 ∧
        ∀ p ∈ (score_sequence pc acts c).category_scores, p.2.score ≤ 100) ∧
    (∀ (pc : List PriorityCategory) (acts : List ActivityModel) (c : SearchCriteria),
      (score_sequence_without_duration pc acts c).total_score ≤ 100 ∧
        ∀ p ∈ (score_sequence_without_duration pc acts c).category_scores,
          p.2.score ≤ 100) :=
  ⟨score_activity_bounded, score_activity_without_duration_bounded,
    score_sequence_bounded, score_sequence_without_duration_bounded⟩

theorem mem_combinations {α : Type} : ∀ (k : Nat) (l : List α) (y : List α),
    y ∈ combinations k l ↔ y.Sublist l ∧ y.length = k := by
  intro k l
  induction l generalizing k with
  | nil =>
      intro y
      cases k with
      | zero =>
          simp only [combinations, List.mem_singleton]
          constructor
          · rintro rfl
            exact ⟨List.Sublist.refl [], rfl⟩
          · rintro ⟨hs, hl⟩
            exact List.length_eq_zero.mp hl
      | succ k' =>
          simp only [combinations, List.not_mem_nil, false_iff, not_and]
          intro hs
          rw [List.sublist_nil.mp hs]
          simp
  | cons x xs ih =>
      intro y
      cases k with
      | zero =>
          simp only [combinations, List.mem_singleton]
          constructor
          · rintro rfl
            exact ⟨List.nil_sublist _, rfl⟩
          · rintro ⟨hs, hl⟩
            exact List.length_eq_zero.mp hl
      | succ k' =>
          simp only [combinations, List.mem_append, List.mem_map]
          constructor
          · rintro (⟨z, hz, rfl⟩ | h)
            · obtain ⟨hs, hl⟩ := (ih k' z).mp hz
              exact ⟨hs.cons₂ x, by simp [hl]⟩
            · obtain ⟨hs, hl⟩ := (ih (k' + 1) y).mp h
              exact ⟨hs.cons x, hl⟩
          · rintro ⟨hs, hl⟩
            cases hs with
            | cons a h =>
                exact Or.inr ((ih (k' + 1) y).mpr ⟨h, hl⟩)
            | cons₂ a h =>
                rename_i t
                refine Or.inl ⟨t, (ih k' t).mpr ⟨h, ?_⟩, rfl⟩
                simpa using hl

theorem mem_lessonPlanCombos (max_activity_count : Int) (filteredIdx : List Nat)
    (hmax : 1 < max_activity_count) (ls : List Nat) :
    ls ∈ lessonPlanCombos max_activity_count filteredIdx ↔
      (ls.Sublist (filteredIdx.take LESSON_PLAN_TOP_ACTIVITIES_LIMIT) ∧
        2 ≤ ls.length ∧ ls.length ≤ 5 ∧ (ls.length : Int) ≤ max_activity_count) := by
  unfold lessonPlanCombos
  set top := filteredIdx.take LESSON_PLAN_TOP_ACTIVITIES_LIMIT with htop
  rw [List.mem_flatMap]
  have hm1 : min (max_activity_count + 1) 6 ≤ max_activity_count + 1 := min_le_left _ _
  have hm2 : min (max_activity_count + 1) 6 ≤ 6 := min_le_right _ _
  have hm3 : min (max_activity_count + 1) 6 = max_activity_count + 1 ∨
      min (max_activity_count + 1) 6 = 6 := min_choice _ _
  constructor
  · rintro ⟨k, hk, hmem⟩
    rw [pyRange, List.mem_range'_1] at hk
    by_cases hkl : k ≤ top.length
    · rw [if_pos hkl] at hmem
      obtain ⟨hs, hl⟩ := (mem_combinations k top ls).mp hmem
      subst hl
      refine ⟨hs, by omega, ?_, ?_⟩
      · rcases hm3 with h | h <;> omega
      · rcases hm3 with h | h <;> omega
    · rw [if_neg hkl] at hmem
      exact absurd hmem (List.not_mem_nil ls)
  · rintro ⟨hs, h2, h5, hmc⟩
    refine ⟨ls.length, ?_, ?_⟩
    · rw [pyRange, List.mem_range'_1]
      constructor
      · exact h2
      · rcases hm3 with h | h <;> omega
    · rw [if_pos hs.length_le]
      exact (mem_combinations ls.length top ls).mpr ⟨hs, rfl⟩

/-- C8: Combination generation: with `max_activity_count > 1` and more than
one surviving activity, the multi-activity candidates of the first scoring
pass are exactly the k-element combinations, 2 ≤ k ≤ 5 and k bounded by
`max_activity_count`, drawn (order-preservingly) from the first 20
surviving activities in filtered order — activities are denoted by their
index in the caller's list, and ranking by score has not happened yet. -/
theorem combination_generation_exact (pc : List PriorityCategory)
    (criteria : SearchCriteria) (max_activity_count : Int)
    (input : List ActivityModel) (store : BreakStore) (filteredIdx : List Nat)
    (hmax : 1 < max_activity_count) (hlen : 1 < filteredIdx.length)
    (ls : List Nat) :
    (∃ sm, (ls, sm) ∈ score_all_activities_without_duration pc criteria
        max_activity_count input store filteredIdx ∧ 2 ≤ ls.length) ↔
      (ls.Sublist (filteredIdx.take LESSON_PLAN_TOP_ACTIVITIES_LIMIT) ∧
        2 ≤ ls.length ∧ ls.length ≤ 5 ∧ (ls.length : Int) ≤ max_activity_count) := by
  unfold score_all_activities_without_duration
  rw [if_pos ⟨hmax, hlen⟩]
  constructor
  · rintro ⟨sm, hmem, h2⟩
    rw [List.mem_append] at hmem
    rcases hmem with hsing | hplan
    · simp only [List.mem_map] at hsing
      obtain ⟨i, _, heq⟩ := hsing
      have : ls = [i] := ((Prod.mk.injEq _ _ _ _).mp heq).1.symm
      subst this
      simp at h2
    · simp only [List.mem_map] at hplan
      obtain ⟨combo, hcombo, heq⟩ := hplan
      have : ls = combo := ((Prod.mk.injEq _ _ _ _).mp heq).1.symm
      subst this
      exact (mem_lessonPlanCombos max_activity_count filteredIdx hmax ls).mp hcombo
  · intro hr
    refine ⟨score_sequence_without_duration pc (ls.map (materialize input store)) criteria,
      ?_, hr.2.1⟩
    rw [List.mem_append]
    right
    simp only [List.mem_map]
    exact ⟨ls, (mem_lessonPlanCombos max_activity_count filteredIdx hmax ls).mpr hr, rfl⟩

/-- C8 witness: with `max_activity_count = 2` and three surviving
activities, the index pair `[0, 2]` is generated as a candidate. -/
theorem combination_generation_exact_witness :
    ∃ sm, (([0, 2] : List Nat), sm) ∈ score_all_activities_without_duration [] {} 2
        [{ name := "x", age_min := 6, age_max := 9, format := .DIGITAL,
           bloom_level := .APPLY, duration_min_minutes := 10 },
         { name := "y", age_min := 6, age_max := 9, format := .DIGITAL,
           bloom_level := .APPLY, duration_min_minutes := 10 },
         { name := "z", age_min := 6, age_max := 9, format := .DIGITAL,
           bloom_level := .APPLY, duration_min_minutes := 10 }]
        (fun _ => none) [0, 1, 2] ∧ 2 ≤ ([0, 2] : List Nat).length :=
  (combination_generation_exact [] {} 2
    [{ name := "x", age_min := 6, age_max := 9, format := .DIGITAL,
       bloom_level := .APPLY, duration_min_minutes := 10 },
     { name := "y", age_min := 6, age_max := 9, format := .DIGITAL,
       bloom_level := .APPLY, duration_min_minutes := 10 },
     { name := "z", age_min := 6, age_max := 9, format := .DIGITAL,
       bloom_level := .APPLY, duration_min_minutes := 10 }]
    (fun _ => none) [0, 1, 2] (by decide) (by decide) [0, 2]).mpr
    ⟨by decide, by decide, by decide, by decide⟩
